import Mathlib

/-!
Verification of the wikipedia-chatbot pattern/action dispatcher (`a10.py`)
against its specification.

The development shallowly embeds the program:
  * the token matcher (`match` from the repository's `match` module, which is
    not part of the provided sources; it is modelled from the specification),
  * the dispatcher `search_pa_list` and the pattern/action table `pa_list`,
  * the scraping helpers `clean_text`, `get_first_infobox_text`, `get_match`
    and the `get_*` field extractors, with the genuinely external pieces
    (network fetch, html parsing, regex engine) abstracted as an oracle,
  * the tokenization performed by `query_loop` before dispatching.

Python exceptions are modelled with an `Except` monad over an explicit
exception type; machine-level concerns do not arise (the program manipulates
lists of strings only).
-/

/-- Joins tokens with single spaces, modelling Python's `" ".join(tokens)`. -/
def joinTokens (ts : List String) : String :=
  String.intercalate " " ts

/-- Modelled from the spec: the search a `MULTI` ("%") wildcard performs.
Given `f`, the matcher for the remainder of the pattern, `starSearch f acc input`
tries consumption lengths from zero upward: it first lets the remainder of the
pattern consume all of `input` (the wildcard having consumed `acc`), and on
failure moves one more token from `input` into `acc`, succeeding on the first
split that makes the remainder match.  The wildcard's capture is the
space-joined run of tokens it consumed. -/
def starSearch (f : List String → Option (List String)) :
    List String → List String → Option (List String)
  | acc, [] =>
    match f [] with
    | some caps => some (joinTokens acc :: caps)
    | none => none
  | acc, t :: rest =>
    match f (t :: rest) with
    | some caps => some (joinTokens acc :: caps)
    | none => starSearch f (acc ++ [t]) rest

/-- Modelled from the spec: the matcher `match(pattern, source)` of the
repository's `match` module (imported by `a10.py` but absent from the provided
sources).  A pattern element `"%"` is the `MULTI` wildcard (zero or more
tokens, captured space-joined), `"_"` is the `SINGLE` wildcard (exactly one
token, captured as itself), and any other element is a literal that must equal
the next input token.  The empty pattern matches only the empty input.
Wildcard markers are special only inside the pattern, never inside the input.
Returns `some captures` on success and `none` for `NO_MATCH`. -/
def matchPat : List String → List String → Option (List String)
  | [], [] => some []
  | [], _ :: _ => none
  | p :: pat, input =>
    if p = "%" then
      starSearch (matchPat pat) [] input
    else
      match input with
      | [] => none
      | t :: rest =>
        if p = "_" then (matchPat pat rest).map (fun caps => t :: caps)
        else if p = t then matchPat pat rest
        else none







/-- The Python exceptions that can cross the dispatcher boundary in `a10.py`:
a topic-resolution failure inside `get_page_html` (the spec's `TopicNotFound`),
the `AttributeError(error_text)` raised by `get_match` when a field regex finds
nothing (the spec's `FieldNotFound`), the `LookupError("Page has no infobox")`
raised by `get_first_infobox_text`, and the `KeyboardInterrupt` raised by
`bye_action`. -/
inductive Exn where
  | topicNotFound : Exn
  | fieldNotFound : String → Exn
  | lookupError : String → Exn
  | keyboardInterrupt : Exn
deriving DecidableEq, Repr

/-- The type of the actions in `pa_list`: from the matcher's captures to a
list of answers, possibly raising an exception (modelled with `Except`). -/
abbrev PAction := List String → Except Exn (List String)

/-- The external collaborators of `a10.py`, abstracted: `search` is
`wikipedia.search(title)` followed by `WikipediaPage(results[0]).html()`
(may raise; its failure is the spec's `TopicNotFound`); `findInfoboxes` is
`BeautifulSoup(html).find_all(class_="infobox")` mapped to the `.text` of each
hit; `regexSearch pattern text` is `re.compile(pattern, DOTALL|IGNORECASE)
.search(text)`, returning the extracted group on a hit and `none` otherwise. -/
structure Wiki where
  search : String → Except Exn String
  findInfoboxes : String → List String
  regexSearch : String → String → Option String

/-- `get_page_html(title)` from `a10.py`: fetches the page html for a title
via the wikipedia collaborator. -/
def get_page_html (w : Wiki) (title : String) : Except Exn String :=
  w.search title

/-- `get_first_infobox_text(html)` from `a10.py`: takes the first element of
`soup.find_all(class_="infobox")` and raises
`LookupError("Page has no infobox")` when there is none. -/
def get_first_infobox_text (w : Wiki) (html : String) : Except Exn String :=
  match w.findInfoboxes html with
  | [] => Except.error (Exn.lookupError "Page has no infobox")
  | t :: _ => Except.ok t

/-- `get_match(text, pattern, error_text)` from `a10.py`, with the regex
engine's answer (`p.search(text)`) supplied as `found`: raises
`AttributeError(error_text)` when the pattern found nothing. -/
def get_match (found : Option String) (error_text : String) :
    Except Exn String :=
  match found with
  | none => Except.error (Exn.fieldNotFound error_text)
  | some m => Except.ok m

/-- Membership in Python's `string.printable`: the 95 printable ASCII
characters `0x20`–`0x7e` together with the whitespace controls
`\t`, `\n`, `\r`, `\x0b`, `\x0c`. -/
def printable (c : Char) : Bool :=
  (0x20 ≤ c.toNat && c.toNat ≤ 0x7e) || c.toNat = 0x9 || c.toNat = 0xa ||
    c.toNat = 0xd || c.toNat = 0xb || c.toNat = 0xc

/-- One character of `clean_text`'s first step
`char if char in string.printable else " "`. -/
def printFix (c : Char) : Char :=
  if printable c then c else ' '

/-- Collapses every maximal run of the character `t` to a single `t`,
modelling `re.sub(" +", " ", s)` (for `t = ' '`) and `re.sub("\n+", "\n", s)`
(for `t = '\n'`). -/
def collapseRuns (t : Char) : List Char → List Char
  | [] => []
  | [c] => [c]
  | c :: d :: rest =>
    if c = t ∧ d = t then collapseRuns t (d :: rest)
    else c :: collapseRuns t (d :: rest)

/-- `clean_text(text)` from `a10.py`, on the character list of the text:
replace every character outside `string.printable` by a space, then collapse
runs of spaces, then collapse runs of newlines. -/
def clean_text (l : List Char) : List Char :=
  collapseRuns '\n' (collapseRuns ' ' (l.map printFix))

/-- `clean_text` lifted back to `String`, as the `get_*` extractors use it. -/
def cleanTextStr (s : String) : String :=
  String.mk (clean_text s.data)

/-- The field regex of `get_polar_radius`. -/
def polarRadiusPattern : String :=
  "(?:Polar radius.*?)(?: ?[\\d]+ )?(?P<radius>[\\d,.]+)(?:.*?)km"

/-- The field regex of `get_birth_date`. -/
def birthPattern : String :=
  "(?:Born\\D*)(?P<birth>\\d\x7b4\x7d-\\d\x7b2\x7d-\\d\x7b2\x7d)"

/-- The field regex of `get_address`. -/
def addressPattern : String :=
  "(?:Address\\s*:?\\s*)(?P<address>[\\d\\w\\s\\.,]+?)(?=\\s*(?:Street|Coordinates)|$)"

/-- The field regex of `get_elevation`. -/
def elevationPattern : String :=
  "(?:Elevation AMSL.*?)(?P<elevation>[\\d,.]+)(?:.*?)ft"

/-- `re.escape`, modelled: escape every character that is not alphanumeric. -/
def reEscape (s : String) : String :=
  String.mk (s.data.flatMap (fun c => if c.isAlphanum then [c] else ['\\', c]))

/-- The field regex of `get_runway_length`, built from the runway name as the
source's `rf"(?i){re.escape(runway_name)}\n(?P<length>[^\n]*)"` does. -/
def runwayPattern (runway_name : String) : String :=
  "(?i)" ++ reEscape runway_name ++ "\n(?P<length>[^\n]*)"

/-- `get_polar_radius(planet_name)` from `a10.py`: fetch the page, isolate and
clean the first infobox, and extract the radius group with `get_match`. -/
def get_polar_radius (w : Wiki) (planet_name : String) : Except Exn String :=
  match get_page_html w planet_name with
  | Except.error e => Except.error e
  | Except.ok html =>
    match get_first_infobox_text w html with
    | Except.error e => Except.error e
    | Except.ok box =>
      get_match (w.regexSearch polarRadiusPattern (cleanTextStr box))
        "Page infobox has no polar radius information"

/-- `get_birth_date(name)` from `a10.py`. -/
def get_birth_date (w : Wiki) (name : String) : Except Exn String :=
  match get_page_html w name with
  | Except.error e => Except.error e
  | Except.ok html =>
    match get_first_infobox_text w html with
    | Except.error e => Except.error e
    | Except.ok box =>
      get_match (w.regexSearch birthPattern (cleanTextStr box))
        "Page infobox has no birth information (at least none in xxxx-xx-xx format)"

/-- `get_address(school_name)` from `a10.py`. -/
def get_address (w : Wiki) (school_name : String) : Except Exn String :=
  match get_page_html w school_name with
  | Except.error e => Except.error e
  | Except.ok html =>
    match get_first_infobox_text w html with
    | Except.error e => Except.error e
    | Except.ok box =>
      get_match (w.regexSearch addressPattern (cleanTextStr box))
        "Page infobox has no address information"

/-- `get_elevation(airport_name)` from `a10.py`. -/
def get_elevation (w : Wiki) (airport_name : String) : Except Exn String :=
  match get_page_html w airport_name with
  | Except.error e => Except.error e
  | Except.ok html =>
    match get_first_infobox_text w html with
    | Except.error e => Except.error e
    | Except.ok box =>
      get_match (w.regexSearch elevationPattern (cleanTextStr box))
        "Page infobox has no elevation information"

/-- `get_runway_length(airport_name, runway_name)` from `a10.py`. -/
def get_runway_length (w : Wiki) (airport_name runway_name : String) :
    Except Exn String :=
  match get_page_html w airport_name with
  | Except.error e => Except.error e
  | Except.ok html =>
    match get_first_infobox_text w html with
    | Except.error e => Except.error e
    | Except.ok box =>
      get_match (w.regexSearch (runwayPattern runway_name) (cleanTextStr box))
        "Page infobox has no runway length information"

/-- Action `birth_date(matches)` from `a10.py`:
`[get_birth_date(" ".join(matches))]`. -/
def birth_date (w : Wiki) (ms : List String) : Except Exn (List String) :=
  (get_birth_date w (joinTokens ms)).map (fun r => [r])

/-- Action `polar_radius(matches)` from `a10.py`:
`[get_polar_radius(matches[0])]`. -/
def polar_radius (w : Wiki) (ms : List String) : Except Exn (List String) :=
  (get_polar_radius w (ms.getD 0 "")).map (fun r => [r])

/-- Action `address(matches)` from `a10.py`:
`[get_address(" ".join(matches))]`. -/
def address (w : Wiki) (ms : List String) : Except Exn (List String) :=
  (get_address w (joinTokens ms)).map (fun r => [r])

/-- Action `elevation(matches)` from `a10.py`:
`[get_elevation(" ".join(matches)) + " ft"]`. -/
def elevation (w : Wiki) (ms : List String) : Except Exn (List String) :=
  (get_elevation w (joinTokens ms)).map (fun r => [r ++ " ft"])

/-- Action `runway_length(matches)` from `a10.py`:
`[get_runway_length(matches[1], matches[0]) + " ft"]`. -/
def runway_length (w : Wiki) (ms : List String) :
    Except Exn (List String) :=
  (get_runway_length w (ms.getD 1 "") (ms.getD 0 "")).map
    (fun r => [r ++ " ft"])

/-- `bye_action(dummy)` from `a10.py`: `raise KeyboardInterrupt`. -/
def bye_action (dummy : List String) : Except Exn (List String) :=
  Except.error Exn.keyboardInterrupt

/-- The pattern-action table `pa_list` of `a10.py`, in its declared order,
with each pattern string split on whitespace as the source's `.split()` has
already done. -/
def pa_list (w : Wiki) : List (List String × PAction) :=
  [ (["when", "was", "%", "born"], birth_date w),
    (["what", "is", "the", "polar", "radius", "of", "%"], polar_radius w),
    (["what", "is", "the", "address", "of", "%"], address w),
    (["what", "is", "the", "elevation", "of", "%"], elevation w),
    (["what", "is", "the", "length", "of", "runway", "_", "at", "%"],
      runway_length w),
    (["bye"], bye_action) ]

/-- The loop body of `search_pa_list` from `a10.py`, written over an arbitrary
table (the source's loop reads its table only by iterating it): try each
`(pat, act)` in order; on the first `pat` the matcher accepts, call `act` on
the captures and return its answer, with an empty answer replaced by the
`["No answers"]` sentinel (`return answer if answer else ["No answers"]`);
an exception raised by `act` propagates.  When no pattern matches, return
`["I don\x27t understand"]`. -/
def dispatch : List (List String × PAction) → List String →
    Except Exn (List String)
  | [], _ => Except.ok ["I don\x27t understand"]
  | (pat, act) :: rest, src =>
    match matchPat pat src with
    | some mat =>
      match act mat with
      | Except.ok answer =>
        Except.ok (if answer = [] then ["No answers"] else answer)
      | Except.error e => Except.error e
    | none => dispatch rest src

/-- `search_pa_list(src)` from `a10.py`: the dispatch loop over `pa_list`. -/
def search_pa_list (w : Wiki) (src : List String) : Except Exn (List String) :=
  dispatch (pa_list w) src

/-- `query.replace("?", "")` from `query_loop` in `a10.py`: removes every
`'?'` character, wherever it appears. -/
def removeQM : List Char → List Char
  | [] => []
  | c :: rest => if c = '?' then removeQM rest else c :: removeQM rest

/-- Python's `str.split()` (no separator): split on runs of whitespace,
producing no empty tokens.  `acc` holds the characters of the current word,
in reverse. -/
def splitWSAux : List Char → List Char → List String
  | [], acc => if acc = [] then [] else [String.mk acc.reverse]
  | c :: rest, acc =>
    if c.isWhitespace then
      (if acc = [] then splitWSAux rest []
       else String.mk acc.reverse :: splitWSAux rest [])
    else splitWSAux rest (c :: acc)

/-- The tokenization `query_loop` performs on a raw input line before calling
`search_pa_list`: `input(...).replace("?", "").lower().split()`. -/
def query_tokenize (l : List Char) : List String :=
  splitWSAux ((removeQM l).map Char.toLower) []

/-- Modelled from the spec: the tokenization the specification describes for
the interactive caller — case-normalizing and stripping only a single
*trailing* query mark before splitting on whitespace (so that a `'?'` in any
other position would remain part of a token). -/
def stripTrailingQM (l : List Char) : List Char :=
  match l.getLast? with
  | some '?' => l.dropLast
  | _ => l

/-- Modelled from the spec: the whole spec-side tokenization, for comparison
with `query_tokenize`. -/
def query_tokenize_claim (l : List Char) : List String :=
  splitWSAux ((stripTrailingQM l).map Char.toLower) []




/-! ## Matcher lemmas -/

theorem matchPat_multi_cons (pat I : List String) :
    matchPat ("%" :: pat) I = starSearch (matchPat pat) [] I := by
  simp [matchPat]

theorem starSearch_empty_pat (I : List String) : ∀ acc : List String,
    starSearch (matchPat []) acc I = some [joinTokens (acc ++ I)] := by
  induction I with
  | nil => intro acc; simp [starSearch, matchPat]
  | cons t rest ih =>
    intro acc
    simp only [starSearch, matchPat, ih (acc ++ [t]), List.append_assoc,
      List.singleton_append]

theorem starSearch_first_split (f : List String → Option (List String)) :
    ∀ (k : Nat) (I acc caps : List String),
      (∀ j, j < k → f (I.drop j) = none) →
      f (I.drop k) = some caps →
      starSearch f acc I = some (joinTokens (acc ++ I.take k) :: caps) := by
  intro k
  induction k with
  | zero =>
    intro I acc caps _ hk
    cases I with
    | nil => simp only [starSearch, List.drop_nil] at hk ⊢; rw [hk]; simp
    | cons t rest =>
      simp only [List.drop_zero] at hk
      simp only [starSearch, hk, List.take_zero, List.append_nil]
  | succ k ih =>
    intro I acc caps hnone hk
    have h0 : f I = none := by simpa using hnone 0 (Nat.succ_pos k)
    cases I with
    | nil => simp [h0] at hk
    | cons t rest =>
      simp only [starSearch, h0]
      have hrec := ih rest (acc ++ [t]) caps
        (fun j hj => by
          have := hnone (j + 1) (Nat.succ_lt_succ hj)
          simpa using this)
        (by simpa using hk)
      rw [hrec]
      simp [List.append_assoc]

/-- Claim C2: for every input `I`, `match([MULTI], I)` succeeds with exactly
one capture, the space-joined tokens of `I` (the empty string for empty `I`);
and when pattern elements follow a `MULTI`, the matcher tries consumption
lengths from zero upward and succeeds on the first split `k` for which the
rest of the pattern matches the rest of the input, capturing the consumed
prefix space-joined. -/
theorem match_multi_wildcard :
    (∀ I : List String, matchPat ["%"] I = some [joinTokens I]) ∧
    (∀ (pat I : List String) (k : Nat) (caps : List String),
      (∀ j, j < k → matchPat pat (I.drop j) = none) →
      matchPat pat (I.drop k) = some caps →
      matchPat ("%" :: pat) I = some (joinTokens (I.take k) :: caps)) := by
  constructor
  · intro I
    rw [matchPat_multi_cons, starSearch_empty_pat I []]
    simp
  · intro pat I k caps hnone hk
    rw [matchPat_multi_cons,
      starSearch_first_split (matchPat pat) k I [] caps hnone hk]
    simp

/-- Witness for C2 at concrete inputs. -/
theorem match_multi_wildcard_witness :
    matchPat ["%"] ["a", "b"] = some ["a b"] ∧
    matchPat ["%", "born"] ["ada", "lovelace", "born"] =
      some ["ada lovelace"] := by
  constructor
  · exact match_multi_wildcard.1 ["a", "b"]
  · exact match_multi_wildcard.2 ["born"] ["ada", "lovelace", "born"] 2 []
      (by intro j hj; interval_cases j <;> decide) (by decide)

/-- Claim C3: a pattern with no wildcard markers matches exactly the inputs
that are token-for-token identical to it, and captures nothing. -/
theorem match_literal_exact (p I : List String)
    (hm : "%" ∉ p) (hs : "_" ∉ p) :
    matchPat p I = if p = I then some [] else none := by
  induction p generalizing I with
  | nil =>
    cases I with
    | nil => simp [matchPat]
    | cons t rest => simp [matchPat]
  | cons q pat ih =>
    have hq1 : ¬ q = "%" := fun h => hm (List.mem_cons.mpr (Or.inl h.symm))
    have hq2 : ¬ q = "_" := fun h => hs (List.mem_cons.mpr (Or.inl h.symm))
    have hm' : "%" ∉ pat := fun h => hm (List.mem_cons_of_mem q h)
    have hs' : "_" ∉ pat := fun h => hs (List.mem_cons_of_mem q h)
    cases I with
    | nil => simp [matchPat, hq1]
    | cons t rest =>
      simp only [matchPat, if_neg hq1, if_neg hq2]
      by_cases hqt : q = t
      · subst hqt
        rw [if_pos rfl, ih rest hm' hs']
        by_cases hpr : pat = rest
        · simp [hpr]
        · simp [hpr, List.cons_eq_cons]
      · rw [if_neg hqt]
        have : ¬ (q :: pat = t :: rest) := by
          simp [List.cons_eq_cons, hqt]
        simp [this]

/-- Witness for C3 at concrete inputs. -/
theorem match_literal_exact_witness :
    matchPat ["bye"] ["bye"] = some [] ∧
    matchPat ["bye"] ["bye", "now"] = none := by
  constructor
  · have := match_literal_exact ["bye"] ["bye"] (by decide) (by decide)
    simpa using this
  · have := match_literal_exact ["bye"] ["bye", "now"] (by decide) (by decide)
    simpa using this

/-! ## Dispatcher lemmas -/

theorem dispatch_skip (pre rest : List (List String × PAction))
    (src : List String) (h : ∀ e ∈ pre, matchPat e.1 src = none) :
    dispatch (pre ++ rest) src = dispatch rest src := by
  induction pre with
  | nil => rfl
  | cons e pre ih =>
    have he : matchPat e.1 src = none := h e (List.mem_cons_self e pre)
    cases e with
    | mk pat act =>
      simp only [List.cons_append, dispatch]
      rw [he]
      exact ih (fun e' he' => h e' (List.mem_cons_of_mem _ he'))

/-- A concrete oracle for witnesses: every page fetch returns an empty html
document, no infobox is ever found, and no regex ever matches. -/
def trivialWiki : Wiki where
  search := fun _ => Except.ok ""
  findInfoboxes := fun _ => []
  regexSearch := fun _ _ => none

/-- Claim C1: when the table is `pre ++ (p, a) :: post` with no pattern of
`pre` matching `src` and `p` matching with captures `caps`, dispatch returns
the (sentinel-normalized) result of `a caps` alone; the entries of `post` are
arbitrary and do not influence the result, so no later action is invoked. -/
theorem dispatch_first_match_priority
    (pre post : List (List String × PAction)) (p : List String) (a : PAction)
    (src caps : List String)
    (h1 : ∀ e ∈ pre, matchPat e.1 src = none)
    (h2 : matchPat p src = some caps) :
    dispatch (pre ++ (p, a) :: post) src =
      (match a caps with
       | Except.ok answer =>
         Except.ok (if answer = [] then ["No answers"] else answer)
       | Except.error e => Except.error e) := by
  rw [dispatch_skip pre ((p, a) :: post) src h1]
  simp only [dispatch]
  rw [h2]

/-- Witness for C1: two entries match `["hi"]`; only the first one's action
decides the result. -/
theorem dispatch_first_match_priority_witness :
    dispatch [(["hi"], fun _ => Except.ok ["hello"]),
              (["hi"], fun _ => Except.ok ["later"])] ["hi"] =
      Except.ok ["hello"] :=
  dispatch_first_match_priority [] [(["hi"], fun _ => Except.ok ["later"])]
    ["hi"] (fun _ => Except.ok ["hello"]) ["hi"] []
    (fun e he => absurd he (List.not_mem_nil e)) (by decide)

/-- Claim C4: when the first matching entry's action returns the list `l`,
dispatch returns `l` verbatim if it is non-empty and the sentinel
`["No answers"]` if it is empty. -/
theorem dispatch_answer_normalization
    (pre post : List (List String × PAction)) (p : List String) (a : PAction)
    (src caps l : List String)
    (h1 : ∀ e ∈ pre, matchPat e.1 src = none)
    (h2 : matchPat p src = some caps)
    (h3 : a caps = Except.ok l) :
    dispatch (pre ++ (p, a) :: post) src =
      Except.ok (if l = [] then ["No answers"] else l) := by
  rw [dispatch_skip pre ((p, a) :: post) src h1]
  simp only [dispatch, h2, h3]

/-- Witness for C4: a non-empty result is returned verbatim and an empty
result becomes `["No answers"]`. -/
theorem dispatch_answer_normalization_witness :
    dispatch [(["hi"], fun _ => Except.ok ["a", "b"])] ["hi"] =
      Except.ok ["a", "b"] ∧
    dispatch [(["hey"], fun _ => Except.ok [])] ["hey"] =
      Except.ok ["No answers"] := by
  constructor
  · have := dispatch_answer_normalization [] [] ["hi"]
      (fun _ => Except.ok ["a", "b"]) ["hi"] [] ["a", "b"]
      (fun e he => absurd he (List.not_mem_nil e)) (by decide) rfl
    simpa using this
  · have := dispatch_answer_normalization [] [] ["hey"]
      (fun _ => Except.ok []) ["hey"] [] []
      (fun e he => absurd he (List.not_mem_nil e)) (by decide) rfl
    simpa using this

/-- Claim C5: when no pattern of the table matches the input, dispatch
returns the sentinel `["I don\x27t understand"]` as a normal value (an
`Except.ok`, not an `Except.error`). -/
theorem dispatch_no_match_sentinel
    (table : List (List String × PAction)) (src : List String)
    (h : ∀ e ∈ table, matchPat e.1 src = none) :
    dispatch table src = Except.ok ["I don\x27t understand"] := by
  have := dispatch_skip table [] src h
  simpa using this

/-- Witness for C5: the full `pa_list` table on the input
`["asdf", "qwer"]`. -/
theorem dispatch_no_match_sentinel_witness :
    search_pa_list trivialWiki ["asdf", "qwer"] =
      Except.ok ["I don\x27t understand"] := by
  have h : ∀ e ∈ pa_list trivialWiki,
      matchPat e.1 ["asdf", "qwer"] = none := by
    intro e he
    simp only [pa_list, List.mem_cons, List.mem_singleton] at he
    rcases he with rfl | rfl | rfl | rfl | rfl | rfl | he
    · decide
    · decide
    · decide
    · decide
    · decide
    · decide
    · exact absurd he (List.not_mem_nil e)
  exact dispatch_no_match_sentinel (pa_list trivialWiki) ["asdf", "qwer"] h

/-- Claim C6: an exception raised by the first matching entry's action
(such as the spec's `TopicNotFound` or `FieldNotFound`) propagates out of
dispatch unchanged; it is not converted into `["No answers"]`. -/
theorem dispatch_error_propagation
    (pre post : List (List String × PAction)) (p : List String) (a : PAction)
    (src caps : List String) (ex : Exn)
    (h1 : ∀ e ∈ pre, matchPat e.1 src = none)
    (h2 : matchPat p src = some caps)
    (h3 : a caps = Except.error ex) :
    dispatch (pre ++ (p, a) :: post) src = Except.error ex := by
  rw [dispatch_skip pre ((p, a) :: post) src h1]
  simp only [dispatch, h2, h3]

/-- Witness for C6: a `TopicNotFound` raised by the matched action surfaces
as the dispatch outcome. -/
theorem dispatch_error_propagation_witness :
    dispatch [(["hi"], fun _ => Except.error Exn.topicNotFound)] ["hi"] =
      Except.error Exn.topicNotFound :=
  dispatch_error_propagation [] [] ["hi"]
    (fun _ => Except.error Exn.topicNotFound) ["hi"] [] Exn.topicNotFound
    (fun e he => absurd he (List.not_mem_nil e)) (by decide) rfl

/-- Claim C7: the termination entry `(["bye"], bye_action)` is the last entry
of `pa_list`; its action raises the termination signal `KeyboardInterrupt`,
which propagates out of dispatch instead of an answer list; and dispatch
gives any earlier matching entry priority — the result on a first-entry match
is that entry's result regardless of the rest of the table (which contains
the termination entry), so termination has no implicit top priority. -/
theorem bye_termination_behavior (w : Wiki) :
    (pa_list w).getLast? = some (["bye"], bye_action) ∧
    bye_action [] = Except.error Exn.keyboardInterrupt ∧
    search_pa_list w ["bye"] = Except.error Exn.keyboardInterrupt ∧
    (∀ (p : List String) (a : PAction)
       (rest : List (List String × PAction)) (src caps : List String),
      matchPat p src = some caps →
      dispatch ((p, a) :: rest) src =
        (match a caps with
         | Except.ok answer =>
           Except.ok (if answer = [] then ["No answers"] else answer)
         | Except.error e => Except.error e)) := by
  refine ⟨rfl, rfl, rfl, ?_⟩
  intro p a rest src caps h2
  simp only [dispatch]
  rw [h2]

/-- Witness for C7: an earlier matching entry takes priority over the
termination entry placed after it. -/
theorem bye_termination_behavior_witness :
    dispatch [(["hi"], fun _ => Except.ok ["hello"]), (["bye"], bye_action)]
      ["hi"] = Except.ok ["hello"] :=
  (bye_termination_behavior trivialWiki).2.2.2 ["hi"]
    (fun _ => Except.ok ["hello"]) [(["bye"], bye_action)] ["hi"] []
    (by decide)

/-- Claim C9: resolving a page whose html contains no infobox makes
`get_first_infobox_text` raise `LookupError("Page has no infobox")`, an
exception distinct from the `TopicNotFound` and `FieldNotFound` kinds, and
this failure propagates out of dispatch uncaught (shown on the birth-date
entry, the first of `pa_list`). -/
theorem no_infobox_error_propagation (w : Wiki) (src caps : List String)
    (html : String)
    (h1 : matchPat ["when", "was", "%", "born"] src = some caps)
    (h2 : w.search (joinTokens caps) = Except.ok html)
    (h3 : w.findInfoboxes html = []) :
    get_first_infobox_text w html =
      Except.error (Exn.lookupError "Page has no infobox") ∧
    search_pa_list w src =
      Except.error (Exn.lookupError "Page has no infobox") ∧
    (∀ s, Exn.lookupError s ≠ Exn.topicNotFound) ∧
    (∀ s msg, Exn.lookupError s ≠ Exn.fieldNotFound msg) := by
  have hbox : get_first_infobox_text w html =
      Except.error (Exn.lookupError "Page has no infobox") := by
    simp [get_first_infobox_text, h3]
  refine ⟨hbox, ?_, ?_, ?_⟩
  · have hbd : birth_date w caps =
        Except.error (Exn.lookupError "Page has no infobox") := by
      simp only [birth_date, get_birth_date, get_page_html, h2, hbox,
        Except.map]
    simp only [search_pa_list, pa_list, dispatch, h1, hbd]
  · intro s h
    exact Exn.noConfusion h
  · intro s msg h
    exact Exn.noConfusion h

/-- Witness for C9 at a concrete oracle whose pages never contain an
infobox. -/
theorem no_infobox_error_propagation_witness :
    search_pa_list trivialWiki ["when", "was", "ada", "born"] =
      Except.error (Exn.lookupError "Page has no infobox") :=
  (no_infobox_error_propagation trivialWiki ["when", "was", "ada", "born"]
    ["ada"] "" (by decide) rfl rfl).2.1

/-! ## `clean_text` lemmas -/

theorem collapseRuns_cons_head (t : Char) (c : Char) : ∀ rest : List Char,
    ∃ tl : List Char, collapseRuns t (c :: rest) = c :: tl := by
  intro rest
  induction rest generalizing c with
  | nil => exact ⟨[], rfl⟩
  | cons d rs ih =>
    by_cases h : c = t ∧ d = t
    · obtain ⟨tl, htl⟩ := ih d
      refine ⟨tl, ?_⟩
      rw [collapseRuns, if_pos h, htl, h.1, h.2]
    · exact ⟨collapseRuns t (d :: rs), by rw [collapseRuns, if_neg h]⟩

theorem collapseRuns_chain (R : Char → Char → Prop) (t : Char) :
    ∀ l : List Char, List.Chain' R l → List.Chain' R (collapseRuns t l) := by
  intro l
  induction l with
  | nil => intro _; exact List.chain'_nil
  | cons c rest ih =>
    intro hch
    cases rest with
    | nil => exact hch
    | cons d rs =>
      rw [List.chain'_cons] at hch
      by_cases h : c = t ∧ d = t
      · rw [collapseRuns, if_pos h]
        exact ih hch.2
      · rw [collapseRuns, if_neg h]
        obtain ⟨tl, htl⟩ := collapseRuns_cons_head t d rs
        rw [htl]
        rw [htl] at ih
        exact List.chain'_cons.mpr ⟨hch.1, ih hch.2⟩

theorem collapseRuns_no_run (t : Char) : ∀ l : List Char,
    List.Chain' (fun a b => ¬(a = t ∧ b = t)) (collapseRuns t l) := by
  intro l
  induction l with
  | nil => exact List.chain'_nil
  | cons c rest ih =>
    cases rest with
    | nil => simp [collapseRuns]
    | cons d rs =>
      by_cases h : c = t ∧ d = t
      · rw [collapseRuns, if_pos h]
        exact ih
      · rw [collapseRuns, if_neg h]
        obtain ⟨tl, htl⟩ := collapseRuns_cons_head t d rs
        rw [htl]
        rw [htl] at ih
        exact List.chain'_cons.mpr ⟨h, ih⟩

theorem collapseRuns_of_no_run (t : Char) : ∀ l : List Char,
    List.Chain' (fun a b => ¬(a = t ∧ b = t)) l → collapseRuns t l = l := by
  intro l
  induction l with
  | nil => intro _; rfl
  | cons c rest ih =>
    intro hch
    cases rest with
    | nil => rfl
    | cons d rs =>
      rw [List.chain'_cons] at hch
      rw [collapseRuns, if_neg hch.1, ih hch.2]

theorem collapseRuns_mem (t : Char) : ∀ (l : List Char) (c : Char),
    c ∈ collapseRuns t l → c ∈ l := by
  intro l
  induction l with
  | nil => intro c h; exact absurd h (List.not_mem_nil c)
  | cons a rest ih =>
    intro c h
    cases rest with
    | nil => exact h
    | cons d rs =>
      by_cases hb : a = t ∧ d = t
      · rw [collapseRuns, if_pos hb] at h
        exact List.mem_cons_of_mem a (ih c h)
      · rw [collapseRuns, if_neg hb] at h
        rcases List.mem_cons.mp h with h1 | h2
        · exact List.mem_cons.mpr (Or.inl h1)
        · exact List.mem_cons_of_mem a (ih c h2)

theorem printable_printFix (c : Char) : printable (printFix c) = true := by
  rw [printFix]
  by_cases h : printable c = true
  · rw [if_pos h]; exact h
  · rw [if_neg h]; decide

theorem clean_text_mem_printable (l : List Char) :
    ∀ c ∈ clean_text l, printable c = true := by
  intro c hc
  have h1 : c ∈ collapseRuns ' ' (l.map printFix) :=
    collapseRuns_mem '\n' _ c hc
  have h2 : c ∈ l.map printFix := collapseRuns_mem ' ' _ c h1
  obtain ⟨a, _, ha⟩ := List.mem_map.mp h2
  rw [← ha]
  exact printable_printFix a

theorem map_printFix_id : ∀ m : List Char,
    (∀ c ∈ m, printable c = true) → m.map printFix = m := by
  intro m
  induction m with
  | nil => intro _; rfl
  | cons c rest ih =>
    intro h
    have hc : printFix c = c := by
      rw [printFix, if_pos (h c (List.mem_cons_self c rest))]
    rw [List.map_cons, hc, ih (fun d hd => h d (List.mem_cons_of_mem c hd))]

/-- Claim C10: `clean_text` is idempotent, and its output contains only
characters of Python's `string.printable`, never two consecutive spaces, and
never two consecutive newlines. -/
theorem clean_text_idempotent (l : List Char) :
    clean_text (clean_text l) = clean_text l ∧
    (∀ c ∈ clean_text l, printable c = true) ∧
    List.Chain' (fun a b => ¬(a = ' ' ∧ b = ' ')) (clean_text l) ∧
    List.Chain' (fun a b => ¬(a = '\n' ∧ b = '\n')) (clean_text l) := by
  have hsp : List.Chain' (fun a b => ¬(a = ' ' ∧ b = ' ')) (clean_text l) :=
    collapseRuns_chain _ '\n' _ (collapseRuns_no_run ' ' (l.map printFix))
  have hnl : List.Chain' (fun a b => ¬(a = '\n' ∧ b = '\n')) (clean_text l) :=
    collapseRuns_no_run '\n' _
  refine ⟨?_, clean_text_mem_printable l, hsp, hnl⟩
  show collapseRuns '\n' (collapseRuns ' ' ((clean_text l).map printFix)) =
    clean_text l
  rw [map_printFix_id (clean_text l) (clean_text_mem_printable l),
    collapseRuns_of_no_run ' ' _ hsp, collapseRuns_of_no_run '\n' _ hnl]

/-- Witness for C10 at a concrete string containing a non-printable
character, duplicate spaces and duplicate newlines. -/
theorem clean_text_idempotent_witness :
    clean_text (clean_text "a  b\n\nδc".data) = clean_text "a  b\n\nδc".data ∧
    printable 'a' = true := by
  refine ⟨(clean_text_idempotent "a  b\n\nδc".data).1, ?_⟩
  have h2 := (clean_text_idempotent "a  b\n\nδc".data).2.1
  exact h2 'a' (by decide)

/-! ## Tokenization in `query_loop` -/

/-- Counterexample to C8 as stated: on the raw line `"what?s up?"` the code's
tokenization (`.replace("?", "").lower().split()`) yields `["whats", "up"]` —
the non-trailing query mark is deleted, not kept inside the token — while a
tokenization that strips only a trailing query mark, as the claim describes,
would yield `["what?s", "up"]`. -/
theorem query_tokenize_trailing_only_cex :
    query_tokenize "what?s up?".data = ["whats", "up"] ∧
    query_tokenize_claim "what?s up?".data = ["what?s", "up"] ∧
    (["whats", "up"] : List String) ≠ ["what?s", "up"] := by
  decide

theorem removeQM_append : ∀ l1 l2 : List Char,
    removeQM (l1 ++ l2) = removeQM l1 ++ removeQM l2 := by
  intro l1 l2
  induction l1 with
  | nil => rfl
  | cons c rest ih =>
    by_cases h : c = '?'
    · simp only [List.cons_append, removeQM, if_pos h]
      exact ih
    · simp only [List.cons_append, removeQM, if_neg h]
      rw [show rest.append l2 = rest ++ l2 from rfl, ih]

/-- Claim C8 as amended: the interactive caller tokenizes a raw line by
deleting every query mark `'?'` wherever it appears (not only a trailing
one), then lower-casing and splitting on whitespace; a query mark therefore
never reaches a token and never affects token boundaries.  Shown by: deleting
a `'?'` anywhere in the line leaves the token list unchanged, and a concrete
line lower-cases and splits as described. -/
theorem query_tokenize_removes_all_query_marks :
    (∀ l1 l2 : List Char,
      query_tokenize (l1 ++ '?' :: l2) = query_tokenize (l1 ++ l2)) ∧
    query_tokenize "When was Ada Lovelace born?".data =
      ["when", "was", "ada", "lovelace", "born"] := by
  constructor
  · intro l1 l2
    show splitWSAux ((removeQM (l1 ++ '?' :: l2)).map Char.toLower) [] =
      splitWSAux ((removeQM (l1 ++ l2)).map Char.toLower) []
    rw [removeQM_append, removeQM_append]
    have : removeQM ('?' :: l2) = removeQM l2 := by
      rw [removeQM, if_pos rfl]
    rw [this]
  · decide

